import Mathlib

/-!
Verification of the TRIZ-solver frontend session/polling core.

Shallow embedding of:
* `src/frontend/src/utils/constants.ts` — the `POLLING` configuration;
* `src/frontend/src/hooks/useStepPolling.ts` — the backoff polling hook
  (`poll`, `stopPolling`, the start effect, and the timer-driven loop);
* `src/frontend/src/api/types.ts` — the data model used by the claims;
* `src/frontend/src/pages/SessionPage.tsx` — the `canAdvance` / `canGoBack`
  guards;
* the zustand session store (`sessionStore.ts`) — `advanceStep`, `submitStep`.

JS numbers that only ever hold the exact values produced by the backoff
arithmetic (1000, 1500, 2250, 3000 with factor 1.5 — all exact binary
floats) are embedded as rationals (`ℚ`).  Fallible API calls are embedded
as an explicit outcome argument; the emitted callback invocations and
network requests are collected into an `Action` trace.
-/

namespace TrizSpec

/-! ## Data model (src/frontend/src/api/types.ts) -/

/-- Session status vocabulary: `"active" | "completed" | "abandoned"`. -/
inductive SessionStatus where
  | active
  | completed
  | abandoned
  deriving DecidableEq, Repr

/-- StepResult status vocabulary:
`"pending" | "in_progress" | "completed" | "failed"`. -/
inductive StepStatus where
  | pending
  | in_progress
  | completed
  | failed
  deriving DecidableEq, Repr

/-- Problem mode vocabulary: `"express" | "full" | "autopilot"`. -/
inductive ProblemMode where
  | express
  | full
  | autopilot
  deriving DecidableEq, Repr

/-- `StepResult` from types.ts.  Note for claim C5: the field set contains
no key named `completed`. -/
structure StepResult where
  id : Int
  step_code : String
  step_name : String
  user_input : String
  llm_output : String
  validated_result : String
  validation_notes : String
  status : StepStatus
  created_at : String
  deriving DecidableEq, Repr

/-- `Session` from types.ts.  The report-only collections
(`contradictions`, `ikrs`, `solutions`) are omitted: no claim and no
verified component reads them. -/
structure Session where
  id : Int
  problem : Int
  mode : ProblemMode
  current_step : String
  current_part : Int
  status : SessionStatus
  completed_at : Option String
  created_at : String
  steps : List StepResult
  deriving DecidableEq, Repr

/-- One entry of `SessionProgress.steps_completed`. -/
structure ProgressStepFlag where
  code : String
  name : String
  completed : Bool
  deriving DecidableEq, Repr

/-- `SessionProgress` from types.ts. -/
structure SessionProgress where
  current_step : String
  current_step_name : String
  current_index : Int
  total_steps : Int
  completed_count : Int
  percent : ℚ
  steps_completed : List ProgressStepFlag
  deriving DecidableEq, Repr

/-- `TaskStatus` from types.ts.  The optional `result` payload is a
`Record<string, unknown>` the polling logic never inspects; it is
abstracted to an opaque optional string. -/
structure TaskStatus where
  task_id : String
  status : String
  ready : Bool
  result : Option String
  deriving DecidableEq, Repr

/-! ## Polling configuration (src/frontend/src/utils/constants.ts) -/

/-- Shape of the `POLLING` configuration constant. -/
structure PollingConfig where
  INITIAL_INTERVAL_MS : ℚ
  MAX_INTERVAL_MS : ℚ
  BACKOFF_FACTOR : ℚ
  MAX_RETRIES : Nat
  deriving DecidableEq, Repr

/-- The `POLLING` constant: initial 1000 ms, ceiling 3000 ms, factor 1.5,
120 retries. -/
def POLLING : PollingConfig :=
  ⟨1000, 3000, 3 / 2, 120⟩

/-! ## The polling hook (src/frontend/src/hooks/useStepPolling.ts) -/

/-- Outcome of one `getTaskStatus` request: a parsed `TaskStatus`
response, or a thrown network/request error (the `catch` arm). -/
inductive PollResponse where
  | ok (st : TaskStatus)
  | exn
  deriving DecidableEq, Repr

/-- Observable actions of the hook: a status query issued over the
network (recording the timer delay that preceded it), an `onComplete`
callback invocation, and an `onError` callback invocation. -/
inductive Action where
  | query (delay : ℚ)
  | complete (st : TaskStatus)
  | error (msg : String)
  deriving DecidableEq, Repr

/-- Recognizes network-query actions in a trace. -/
def Action.isQuery : Action → Bool
  | Action.query _ => true
  | Action.complete _ => false
  | Action.error _ => false

/-- Mutable state of the hook: the `isPolling` / `result` / `error`
React state, whether a timer with a pending `poll` callback is set
(`timerRef`), and the `delayRef` / `retriesRef` refs. -/
structure HookState where
  isPolling : Bool
  result : Option TaskStatus
  error : Option String
  timerSet : Bool
  delay : ℚ
  retries : Nat
  deriving DecidableEq, Repr

/-- Message set on a `status === "FAILURE"` response. -/
def failureMsg : String := "Ошибка обработки. Попробуйте отправить ещё раз."

/-- Message set when `MAX_RETRIES` is exceeded. -/
def timeoutMsg : String := "Превышено время ожидания ответа."

/-- Message set when the status request throws. -/
def requestErrorMsg : String := "Не удалось проверить статус задачи."

/-- Body of `poll` after the `getTaskStatus` call, translated branch by
branch.  Terminal branches set the React state, reset `delayRef` and
`retriesRef`, invoke the matching callback, and leave no timer pending;
the fall-through branch bumps the retry counter and schedules the next
poll with `min(delay * BACKOFF_FACTOR, MAX_INTERVAL_MS)`. -/
def poll (c : PollingConfig) (s : HookState) (r : PollResponse) :
    HookState × List Action :=
  match r with
  | PollResponse.ok st =>
    if st.ready then
      ({ s with
          result := some st, isPolling := false,
          delay := c.INITIAL_INTERVAL_MS, retries := 0, timerSet := false },
       [Action.complete st])
    else if st.status = "FAILURE" then
      ({ s with
          error := some failureMsg, isPolling := false,
          delay := c.INITIAL_INTERVAL_MS, retries := 0, timerSet := false },
       [Action.error failureMsg])
    else if c.MAX_RETRIES ≤ s.retries + 1 then
      ({ s with
          error := some timeoutMsg, isPolling := false,
          delay := c.INITIAL_INTERVAL_MS, retries := 0, timerSet := false },
       [Action.error timeoutMsg])
    else
      ({ s with
          retries := s.retries + 1,
          delay := min (s.delay * c.BACKOFF_FACTOR) c.MAX_INTERVAL_MS,
          timerSet := true },
       [])
  | PollResponse.exn =>
      ({ s with
          error := some requestErrorMsg, isPolling := false,
          delay := c.INITIAL_INTERVAL_MS, retries := 0, timerSet := false },
       [Action.error requestErrorMsg])

/-- `stopPolling`: clears the timer, sets `isPolling` to false, and
resets `delayRef` and `retriesRef`.  Its body contains no API call, so
it emits an empty action trace. -/
def stopPolling (c : PollingConfig) (s : HookState) :
    HookState × List Action :=
  ({ s with
      timerSet := false, isPolling := false,
      delay := c.INITIAL_INTERVAL_MS, retries := 0 },
   [])

/-- The start effect that runs when a non-null `taskId` arrives: set
`isPolling`, clear `result` and `error`, reset the refs, and schedule
the first poll after `INITIAL_INTERVAL_MS`. -/
def startPolling (c : PollingConfig) : HookState :=
  { isPolling := true, result := none, error := none, timerSet := true,
    delay := c.INITIAL_INTERVAL_MS, retries := 0 }

/-- Timer-driven polling loop.  While a timer is pending, it fires: if
the `!taskId || !sessionId` guard at the top of `poll` trips, `poll`
returns without issuing a request and nothing is rescheduled; otherwise
a network query is issued (recording the delay that was waited), the
response is handled by `poll`, and the loop continues on the resulting
state.  `fuel` bounds the number of timer firings examined; `resp i` is
the outcome of the (i+1)-st request. -/
def run (c : PollingConfig) (sessionId : Int) (taskId : Option String)
    (resp : Nat → PollResponse) : Nat → HookState → HookState × List Action
  | 0, s => (s, [])
  | fuel + 1, s =>
    if s.timerSet then
      if taskId.isNone || sessionId == 0 then
        ({ s with timerSet := false }, [])
      else
        let p := poll c s (resp 0)
        let rest := run c sessionId taskId (fun i => resp (i + 1)) fuel p.1
        (rest.1, Action.query s.delay :: (p.2 ++ rest.2))
    else (s, [])

/-! ## Derived descriptions of the loop's reachable states -/

/-- The delay waited before the (k+1)-st query: `INITIAL_INTERVAL_MS`
for the first query, then multiplied by `BACKOFF_FACTOR` and capped at
`MAX_INTERVAL_MS` after each unsuccessful poll. -/
def delaySeq (c : PollingConfig) : Nat → ℚ
  | 0 => c.INITIAL_INTERVAL_MS
  | k + 1 => min (delaySeq c k * c.BACKOFF_FACTOR) c.MAX_INTERVAL_MS

/-- Hook state after k unsuccessful (non-terminal) polls of a fresh
cycle. -/
def loopState (c : PollingConfig) (k : Nat) : HookState :=
  { isPolling := true, result := none, error := none, timerSet := true,
    delay := delaySeq c k, retries := k }

/-- Hook state after a `ready=true` response terminates a fresh cycle. -/
def readyFinal (c : PollingConfig) (st : TaskStatus) : HookState :=
  { isPolling := false, result := some st, error := none, timerSet := false,
    delay := c.INITIAL_INTERVAL_MS, retries := 0 }

/-- Hook state after the max-retries timeout terminates a fresh cycle. -/
def timeoutFinal (c : PollingConfig) : HookState :=
  { isPolling := false, result := none, error := some timeoutMsg,
    timerSet := false, delay := c.INITIAL_INTERVAL_MS, retries := 0 }

/-! ## SessionPage guards (src/frontend/src/pages/SessionPage.tsx) -/

namespace SessionPage

/-- `const isCompleted = session.status === "completed";` -/
def isCompleted (session : Session) : Bool :=
  session.status == SessionStatus.completed

/-- `const canAdvance = currentStep?.status === "completed" && !isCompleted;`
(optional chaining on a null `currentStep` yields `undefined`, which
compares unequal to `"completed"`). -/
def canAdvance (currentStep : Option StepResult) (session : Session) : Bool :=
  (match currentStep with
    | some s => s.status == StepStatus.completed
    | none => false)
  && !(isCompleted session)

/-- `const canGoBack = progress.current_index > 0;` -/
def canGoBack (p : SessionProgress) : Bool :=
  0 < p.current_index

end SessionPage

/-! ## Session store (zustand sessionStore) -/

namespace SessionStore

/-- Return value of the advance API call, per `api/sessions.ts`:
`StepResult | { detail: string; completed: boolean }`. -/
inductive AdvanceResponse where
  | step (s : StepResult)
  | sentinel (detail : String) (completed : Bool)
  deriving DecidableEq, Repr

/-- The `"completed" in result && result.completed` guard.  A
`StepResult` object has no `completed` key (see `StepResult`), so the
`in` test is false for it; for the sentinel object the guard is the
truthiness of its `completed` field. -/
def completedGuard : AdvanceResponse → Bool
  | AdvanceResponse.step _ => false
  | AdvanceResponse.sentinel _ c => c

/-- Outcome of an awaited API call: a value, or a thrown exception. -/
inductive ApiOutcome (α : Type) where
  | ok (value : α)
  | thrown
  deriving DecidableEq, Repr

/-- Zustand store state.  `currentStep` holds whatever runtime object
was last stored there — genuine `StepResult`s embed via
`AdvanceResponse.step` (the source casts the advance response with
`as StepResult`, so at runtime the field can hold either shape). -/
structure StoreState where
  session : Option Session
  progress : Option SessionProgress
  currentStep : Option AdvanceResponse
  isSubmitting : Bool
  pollingTaskId : Option String
  deriving DecidableEq, Repr

/-- `advanceStep`: if the response carries a truthy `completed` field,
return `true` (session completed) without touching the store; otherwise
store the response as the new `currentStep` and return `false`. -/
def advanceStep (st : StoreState) (result : AdvanceResponse) :
    StoreState × Bool :=
  if completedGuard result then (st, true)
  else ({ st with currentStep := some result }, false)

/-- `submitStep`: sets `isSubmitting`, awaits the submit API call, on
success records the returned `task_id` into `pollingTaskId`, and in the
`finally` clause clears `isSubmitting`; a thrown call is re-raised.
Returns the state observed during the request, the final state, and the
propagated outcome. -/
def submitStep (st : StoreState) (apiResult : ApiOutcome String) :
    StoreState × StoreState × ApiOutcome String :=
  let during := { st with isSubmitting := true }
  match apiResult with
  | ApiOutcome.ok task_id =>
      (during,
       { during with pollingTaskId := some task_id, isSubmitting := false },
       ApiOutcome.ok task_id)
  | ApiOutcome.thrown =>
      (during, { during with isSubmitting := false }, ApiOutcome.thrown)

end SessionStore


/-! ## Basic lemmas about the hook -/

/-- The start effect produces the 0-polls loop state. -/
lemma startPolling_eq_loopState (c : PollingConfig) :
    startPolling c = loopState c 0 := rfl

/-- A fired `ready=true` response from mid-loop yields the ready final
state and a single completion signal. -/
lemma poll_loop_ready (st : TaskStatus) (k : Nat) (hst : st.ready = true) :
    poll POLLING (loopState POLLING k) (PollResponse.ok st)
      = (readyFinal POLLING st, [Action.complete st]) := by
  simp [poll, hst, loopState, readyFinal]

/-- A non-ready, non-failure response below the retry cutoff advances
the loop state by one and signals nothing. -/
lemma poll_loop_pending (st : TaskStatus) (k : Nat) (hr : st.ready = false)
    (hs : st.status ≠ "FAILURE") (hk : k + 1 < POLLING.MAX_RETRIES) :
    poll POLLING (loopState POLLING k) (PollResponse.ok st)
      = (loopState POLLING (k + 1), []) := by
  have hk' : ¬ POLLING.MAX_RETRIES ≤ k + 1 := by omega
  simp [poll, hr, hs, hk', loopState, delaySeq]

/-- A non-ready, non-failure response at the retry cutoff yields the
timeout final state and a single timeout error signal. -/
lemma poll_loop_timeout (st : TaskStatus) (k : Nat) (hr : st.ready = false)
    (hs : st.status ≠ "FAILURE") (hk : POLLING.MAX_RETRIES ≤ k + 1) :
    poll POLLING (loopState POLLING k) (PollResponse.ok st)
      = (timeoutFinal POLLING, [Action.error timeoutMsg]) := by
  simp [poll, hr, hs, hk, loopState, timeoutFinal]

/-- With no timer pending, the loop does nothing. -/
lemma run_stopped (c : PollingConfig) (sid : Int) (tid : Option String)
    (resp : Nat → PollResponse) (fuel : Nat) (s : HookState)
    (h : s.timerSet = false) :
    run c sid tid resp fuel s = (s, []) := by
  cases fuel with
  | zero => rfl
  | succ f => simp [run, h]

/-- One active firing of the loop: issue the query, handle the
response, continue. -/
lemma run_succ_active (c : PollingConfig) (sid : Int) (tid : Option String)
    (resp : Nat → PollResponse) (fuel : Nat) (s : HookState)
    (hts : s.timerSet = true) (hg : (tid.isNone || sid == 0) = false) :
    run c sid tid resp (fuel + 1) s
      = ((run c sid tid (fun i => resp (i + 1)) fuel (poll c s (resp 0)).1).1,
         Action.query s.delay ::
           ((poll c s (resp 0)).2
             ++ (run c sid tid (fun i => resp (i + 1)) fuel
                   (poll c s (resp 0)).1).2)) := by
  simp [run, hts, hg]

/-! ## The delay sequence -/

/-- Delays are nonnegative. -/
lemma delaySeq_nonneg (k : Nat) : 0 ≤ delaySeq POLLING k := by
  induction k with
  | zero => norm_num [delaySeq, POLLING]
  | succ k ih =>
    have h1 : 0 ≤ delaySeq POLLING k * POLLING.BACKOFF_FACTOR :=
      mul_nonneg ih (by norm_num [POLLING])
    have h2 : (0 : ℚ) ≤ POLLING.MAX_INTERVAL_MS := by norm_num [POLLING]
    simpa [delaySeq] using le_min h1 h2

/-- Delays never exceed the configured ceiling. -/
lemma delaySeq_le_max (k : Nat) :
    delaySeq POLLING k ≤ POLLING.MAX_INTERVAL_MS := by
  cases k with
  | zero => norm_num [delaySeq, POLLING]
  | succ k => simp [delaySeq]

/-- The delay sequence is non-decreasing. -/
lemma delaySeq_mono (k : Nat) :
    delaySeq POLLING k ≤ delaySeq POLLING (k + 1) := by
  have h0 := delaySeq_nonneg k
  have h1 : delaySeq POLLING k ≤ delaySeq POLLING k * POLLING.BACKOFF_FACTOR :=
    le_mul_of_one_le_right h0 (by norm_num [POLLING])
  simpa [delaySeq] using le_min h1 (delaySeq_le_max k)

/-! ## Closed forms for full polling cycles -/

/-- A cycle positioned after k unsuccessful polls, fed m further
non-terminal responses and then a `ready=true` response, issues exactly
m+1 further queries at the delays `delaySeq k, …, delaySeq (k+m)`, then
signals completion once and stops. -/
lemma run_ready_aux (sid : Int) (tid : Option String) (st : TaskStatus)
    (hst : st.ready = true) (hg : (tid.isNone || sid == 0) = false) :
    ∀ (m k fuel : Nat) (resp : Nat → PollResponse),
      k + (m + 1) ≤ POLLING.MAX_RETRIES → m + 1 ≤ fuel →
      (∀ i, i < m → ∃ stp, resp i = PollResponse.ok stp ∧
          stp.ready = false ∧ stp.status ≠ "FAILURE") →
      resp m = PollResponse.ok st →
      run POLLING sid tid resp fuel (loopState POLLING k)
        = (readyFinal POLLING st,
           ((List.range' k (m + 1)).map fun j => Action.query (delaySeq POLLING j))
             ++ [Action.complete st]) := by
  intro m
  induction m with
  | zero =>
    intro k fuel resp hk hfuel hpend hready
    obtain ⟨f, rfl⟩ : ∃ f, fuel = f + 1 := ⟨fuel - 1, by omega⟩
    rw [run_succ_active POLLING sid tid resp f (loopState POLLING k) rfl hg]
    rw [hready, poll_loop_ready st k hst]
    rw [run_stopped POLLING sid tid (fun i => resp (i + 1)) f
        (readyFinal POLLING st) rfl]
    simp [loopState, List.range'_succ]
  | succ m ih =>
    intro k fuel resp hk hfuel hpend hready
    obtain ⟨f, rfl⟩ : ∃ f, fuel = f + 1 := ⟨fuel - 1, by omega⟩
    obtain ⟨stp, h0, hr0, hs0⟩ := hpend 0 (Nat.succ_pos m)
    rw [run_succ_active POLLING sid tid resp f (loopState POLLING k) rfl hg]
    rw [h0, poll_loop_pending stp k hr0 hs0 (by omega)]
    rw [ih (k + 1) f (fun i => resp (i + 1)) (by omega) (by omega)
        (fun i hi => hpend (i + 1) (by omega)) hready]
    simp [loopState, List.range'_succ]

/-- A cycle positioned after k unsuccessful polls, fed only
non-terminal responses, polls up to the retry cutoff, then signals the
timeout error once and stops. -/
lemma run_timeout_aux (sid : Int) (tid : Option String)
    (hg : (tid.isNone || sid == 0) = false) :
    ∀ (m k fuel : Nat) (resp : Nat → PollResponse),
      k + (m + 1) = POLLING.MAX_RETRIES → m + 1 ≤ fuel →
      (∀ i, ∃ stp, resp i = PollResponse.ok stp ∧
          stp.ready = false ∧ stp.status ≠ "FAILURE") →
      run POLLING sid tid resp fuel (loopState POLLING k)
        = (timeoutFinal POLLING,
           ((List.range' k (m + 1)).map fun j => Action.query (delaySeq POLLING j))
             ++ [Action.error timeoutMsg]) := by
  intro m
  induction m with
  | zero =>
    intro k fuel resp hk hfuel hpend
    obtain ⟨f, rfl⟩ : ∃ f, fuel = f + 1 := ⟨fuel - 1, by omega⟩
    obtain ⟨stp, h0, hr0, hs0⟩ := hpend 0
    rw [run_succ_active POLLING sid tid resp f (loopState POLLING k) rfl hg]
    rw [h0, poll_loop_timeout stp k hr0 hs0 (by omega)]
    rw [run_stopped POLLING sid tid (fun i => resp (i + 1)) f
        (timeoutFinal POLLING) rfl]
    simp [loopState, List.range'_succ]
  | succ m ih =>
    intro k fuel resp hk hfuel hpend
    obtain ⟨f, rfl⟩ : ∃ f, fuel = f + 1 := ⟨fuel - 1, by omega⟩
    obtain ⟨stp, h0, hr0, hs0⟩ := hpend 0
    rw [run_succ_active POLLING sid tid resp f (loopState POLLING k) rfl hg]
    rw [h0, poll_loop_pending stp k hr0 hs0 (by omega)]
    rw [ih (k + 1) f (fun i => resp (i + 1)) (by omega) (by omega)
        (fun i => hpend (i + 1))]
    simp [loopState, List.range'_succ]

/-- Filtering a trace that starts with queries keeps the queries. -/
lemma filter_isQuery_append (l tail : List Action)
    (hl : ∀ a ∈ l, Action.isQuery a = true) :
    (l ++ tail).filter Action.isQuery
      = l ++ tail.filter Action.isQuery := by
  rw [List.filter_append, List.filter_eq_self.mpr hl]

/-- Every element of a mapped query block is a query. -/
lemma mem_map_query_isQuery (l : List Nat) (d : Nat → ℚ) :
    ∀ a ∈ l.map fun j => Action.query (d j), Action.isQuery a = true := by
  intro a ha
  obtain ⟨j, _, rfl⟩ := List.mem_map.mp ha
  rfl


/-! ## Concrete response fixtures -/

/-- A non-terminal status response. -/
def pendingStatus : TaskStatus := ⟨"task-1", "PENDING", false, none⟩

/-- A successful terminal status response. -/
def successStatus : TaskStatus := ⟨"task-1", "SUCCESS", true, none⟩

/-- A terminal response that is both `ready` and `FAILURE`. -/
def readyFailureStatus : TaskStatus := ⟨"task-1", "FAILURE", true, none⟩

/-- A failure response that is not yet `ready`. -/
def notReadyFailureStatus : TaskStatus := ⟨"task-1", "FAILURE", false, none⟩

/-- Responses: pending once, then success. -/
def respPendingThenSuccess : Nat → PollResponse := fun i =>
  if i = 0 then PollResponse.ok pendingStatus else PollResponse.ok successStatus

/-- Responses: pending forever. -/
def respAlwaysPending : Nat → PollResponse := fun _ =>
  PollResponse.ok pendingStatus

/-! ## Further branch lemmas for `poll` -/

/-- Branch of `poll` taken on a non-ready `FAILURE` response. -/
lemma poll_failure (c : PollingConfig) (s : HookState) (st : TaskStatus)
    (hr : st.ready = false) (hsF : st.status = "FAILURE") :
    poll c s (PollResponse.ok st)
      = ({ s with
            error := some failureMsg, isPolling := false,
            delay := c.INITIAL_INTERVAL_MS, retries := 0, timerSet := false },
         [Action.error failureMsg]) := by
  simp [poll, hr, hsF]

/-- Branch of `poll` taken when the status request throws. -/
lemma poll_exn (c : PollingConfig) (s : HookState) :
    poll c s PollResponse.exn
      = ({ s with
            error := some requestErrorMsg, isPolling := false,
            delay := c.INITIAL_INTERVAL_MS, retries := 0, timerSet := false },
         [Action.error requestErrorMsg]) := rfl

/-! ## Claim C1 -/

/-- C1 counterexample: on a response with `ready=true` and
`status="FAILURE"`, the hook signals `onComplete` (the `ready` branch
fires first) and does not signal `onError`, contradicting the claim
that such a response yields a failure signal and never a completion
signal. -/
theorem claim_C1_counterexample :
    (poll POLLING (startPolling POLLING)
        (PollResponse.ok readyFailureStatus)).2
      = [Action.complete readyFailureStatus]
    ∧ Action.error failureMsg ∉
        (poll POLLING (startPolling POLLING)
          (PollResponse.ok readyFailureStatus)).2 := by
  refine ⟨rfl, ?_⟩
  decide

/-- C1 (amended): on the first response of a cycle with `ready=true`
— whatever its status, including `"FAILURE"` — the hook signals
completion exactly once and polls no further; the failure signal is
issued, exactly once and with no completion signal, for a response
with `ready=false` and `status="FAILURE"`. -/
theorem claim_C1 (sid : Int) (tid : Option String)
    (resp : Nat → PollResponse) (st : TaskStatus) (fuel : Nat)
    (hg : (tid.isNone || sid == 0) = false)
    (h0 : resp 0 = PollResponse.ok st) (hfuel : 1 ≤ fuel) :
    (st.ready = true →
      (run POLLING sid tid resp fuel (startPolling POLLING)).2
        = [Action.query POLLING.INITIAL_INTERVAL_MS, Action.complete st])
    ∧ (st.ready = false → st.status = "FAILURE" →
      (run POLLING sid tid resp fuel (startPolling POLLING)).2
        = [Action.query POLLING.INITIAL_INTERVAL_MS,
           Action.error failureMsg]) := by
  obtain ⟨f, rfl⟩ : ∃ f, fuel = f + 1 := ⟨fuel - 1, by omega⟩
  constructor
  · intro hst
    have hM : POLLING.MAX_RETRIES = 120 := rfl
    have hrun := run_ready_aux sid tid st hst hg 0 0 (f + 1) resp
      (by omega) (by omega) (fun i hi => absurd hi (by omega)) h0
    rw [startPolling_eq_loopState, hrun]
    simp [List.range'_succ, delaySeq]
  · intro hr hsF
    rw [run_succ_active POLLING sid tid resp f (startPolling POLLING) rfl hg,
      h0, poll_failure POLLING (startPolling POLLING) st hr hsF]
    rw [run_stopped POLLING sid tid (fun i => resp (i + 1)) f _ rfl]
    simp [startPolling]

/-- C1 witness: a concrete `ready=true, status="FAILURE"` cycle signals
completion once. -/
theorem claim_C1_witness :
    (run POLLING 1 (some "task-1")
        (fun _ => PollResponse.ok readyFailureStatus) 3
        (startPolling POLLING)).2
      = [Action.query POLLING.INITIAL_INTERVAL_MS,
         Action.complete readyFailureStatus] :=
  (claim_C1 1 (some "task-1") (fun _ => PollResponse.ok readyFailureStatus)
      readyFailureStatus 3 (by decide) rfl (by omega)).1 rfl

/-! ## Claim C2 -/

/-- C2: a handle that becomes ready on the Nth status query makes the
hook issue exactly N queries; the waits before successive queries are
`delaySeq 0, …, delaySeq (N-1)`, a non-decreasing sequence that starts
at the configured initial interval and grows by the backoff factor
capped at the maximum interval; after the ready response the timer is
clear and no further query is issued (any surplus fuel leaves the trace
unchanged). -/
theorem claim_C2 (sid : Int) (tid : Option String)
    (resp : Nat → PollResponse) (st : TaskStatus) (N fuel : Nat)
    (hg : (tid.isNone || sid == 0) = false)
    (hN : 1 ≤ N) (hmax : N ≤ POLLING.MAX_RETRIES) (hfuel : N ≤ fuel)
    (hpend : ∀ i, i + 1 < N → ∃ stp, resp i = PollResponse.ok stp ∧
        stp.ready = false ∧ stp.status ≠ "FAILURE")
    (hready : resp (N - 1) = PollResponse.ok st) (hst : st.ready = true) :
    (run POLLING sid tid resp fuel (startPolling POLLING)).2
        = ((List.range N).map fun j => Action.query (delaySeq POLLING j))
            ++ [Action.complete st]
    ∧ ((run POLLING sid tid resp fuel (startPolling POLLING)).2.filter
          Action.isQuery).length = N
    ∧ delaySeq POLLING 0 = POLLING.INITIAL_INTERVAL_MS
    ∧ (∀ k, delaySeq POLLING (k + 1)
        = min (delaySeq POLLING k * POLLING.BACKOFF_FACTOR)
            POLLING.MAX_INTERVAL_MS)
    ∧ (∀ k, delaySeq POLLING k ≤ delaySeq POLLING (k + 1))
    ∧ (run POLLING sid tid resp fuel (startPolling POLLING)).1.timerSet
        = false := by
  obtain ⟨m, rfl⟩ : ∃ m, N = m + 1 := ⟨N - 1, by omega⟩
  have hready' : resp m = PollResponse.ok st := by simpa using hready
  have hrun := run_ready_aux sid tid st hst hg m 0 fuel resp
    (by omega) hfuel (fun i hi => hpend i (by omega)) hready'
  rw [startPolling_eq_loopState]
  have htr : (run POLLING sid tid resp fuel (loopState POLLING 0)).2
      = ((List.range' 0 (m + 1)).map fun j =>
          Action.query (delaySeq POLLING j)) ++ [Action.complete st] := by
    rw [hrun]
  have hfin : (run POLLING sid tid resp fuel (loopState POLLING 0)).1
      = readyFinal POLLING st := by
    rw [hrun]
  refine ⟨?_, ?_, rfl, fun k => rfl, delaySeq_mono, ?_⟩
  · rw [htr, List.range_eq_range']
  · rw [htr, filter_isQuery_append _ _ (mem_map_query_isQuery _ _)]
    simp [Action.isQuery]
  · rw [hfin]
    rfl

/-- C2 witness: with one pending response and then success, exactly two
queries are issued. -/
theorem claim_C2_witness :
    ((run POLLING 1 (some "task-1") respPendingThenSuccess 5
        (startPolling POLLING)).2.filter Action.isQuery).length = 2 :=
  (claim_C2 1 (some "task-1") respPendingThenSuccess successStatus 2 5
      (by decide) (by omega) (by decide) (by omega)
      (fun i hi => by
        have hi0 : i = 0 := by omega
        subst hi0
        exact ⟨pendingStatus, rfl, rfl, by decide⟩)
      rfl rfl).2.1

/-! ## Claim C3 -/

/-- C3: a handle that never becomes ready and never reports failure is
queried exactly `MAX_RETRIES` times, after which the hook signals the
client-local timeout error exactly once and stops; every action of the
cycle is either a status query or that single error signal — no other
server-side call occurs, and surplus fuel adds nothing. -/
theorem claim_C3 (sid : Int) (tid : Option String)
    (resp : Nat → PollResponse) (fuel : Nat)
    (hg : (tid.isNone || sid == 0) = false)
    (hfuel : POLLING.MAX_RETRIES ≤ fuel)
    (hpend : ∀ i, ∃ stp, resp i = PollResponse.ok stp ∧
        stp.ready = false ∧ stp.status ≠ "FAILURE") :
    (run POLLING sid tid resp fuel (startPolling POLLING)).2
        = ((List.range POLLING.MAX_RETRIES).map fun j =>
            Action.query (delaySeq POLLING j)) ++ [Action.error timeoutMsg]
    ∧ ((run POLLING sid tid resp fuel (startPolling POLLING)).2.filter
          Action.isQuery).length = POLLING.MAX_RETRIES
    ∧ (∀ a ∈ (run POLLING sid tid resp fuel (startPolling POLLING)).2,
        Action.isQuery a = true ∨ a = Action.error timeoutMsg)
    ∧ (run POLLING sid tid resp fuel (startPolling POLLING)).1.error
        = some timeoutMsg
    ∧ (run POLLING sid tid resp fuel (startPolling POLLING)).1.timerSet
        = false := by
  have hM : POLLING.MAX_RETRIES = 120 := rfl
  have hsub : POLLING.MAX_RETRIES - 1 + 1 = POLLING.MAX_RETRIES := by omega
  have hrun := run_timeout_aux sid tid hg (POLLING.MAX_RETRIES - 1) 0 fuel resp
    (by omega) (by omega) hpend
  rw [hsub] at hrun
  rw [startPolling_eq_loopState]
  have htr : (run POLLING sid tid resp fuel (loopState POLLING 0)).2
      = ((List.range' 0 POLLING.MAX_RETRIES).map fun j =>
          Action.query (delaySeq POLLING j)) ++ [Action.error timeoutMsg] := by
    rw [hrun]
  have hfin : (run POLLING sid tid resp fuel (loopState POLLING 0)).1
      = timeoutFinal POLLING := by
    rw [hrun]
  refine ⟨?_, ?_, ?_, ?_, ?_⟩
  · rw [htr, List.range_eq_range']
  · rw [htr, filter_isQuery_append _ _ (mem_map_query_isQuery _ _)]
    simp [Action.isQuery]
  · intro a ha
    rw [htr] at ha
    rcases List.mem_append.mp ha with h | h
    · exact Or.inl (mem_map_query_isQuery _ _ a h)
    · exact Or.inr (List.mem_singleton.mp h)
  · rw [hfin]
    rfl
  · rw [hfin]
    rfl

/-- C3 witness: polling an always-pending handle issues exactly
`MAX_RETRIES` queries. -/
theorem claim_C3_witness :
    ((run POLLING 1 (some "task-1") respAlwaysPending POLLING.MAX_RETRIES
        (startPolling POLLING)).2.filter Action.isQuery).length
      = POLLING.MAX_RETRIES :=
  (claim_C3 1 (some "task-1") respAlwaysPending POLLING.MAX_RETRIES
      (by decide) (le_refl _)
      (fun i => ⟨pendingStatus, rfl, rfl, by decide⟩)).2.1

/-! ## Claim C8 -/

/-- C8: if a status query throws, the hook terminates on that single
failure — it issues the one query, signals the request error exactly
once, records the error message, and schedules no further query, no
matter how much fuel remains. -/
theorem claim_C8 (sid : Int) (tid : Option String)
    (resp : Nat → PollResponse) (s : HookState) (fuel : Nat)
    (hg : (tid.isNone || sid == 0) = false)
    (hts : s.timerSet = true) (h0 : resp 0 = PollResponse.exn)
    (hfuel : 1 ≤ fuel) :
    (run POLLING sid tid resp fuel s).2
        = [Action.query s.delay, Action.error requestErrorMsg]
    ∧ (run POLLING sid tid resp fuel s).1.timerSet = false
    ∧ (run POLLING sid tid resp fuel s).1.error = some requestErrorMsg := by
  obtain ⟨f, rfl⟩ : ∃ f, fuel = f + 1 := ⟨fuel - 1, by omega⟩
  rw [run_succ_active POLLING sid tid resp f s hts hg, h0, poll_exn]
  rw [run_stopped POLLING sid tid (fun i => resp (i + 1)) f _ rfl]
  exact ⟨rfl, rfl, rfl⟩

/-- C8 witness: a concrete cycle whose first request throws stops after
one query and one error signal. -/
theorem claim_C8_witness :
    (run POLLING 1 (some "task-1") (fun _ => PollResponse.exn) 4
        (startPolling POLLING)).2
      = [Action.query (startPolling POLLING).delay,
         Action.error requestErrorMsg] :=
  (claim_C8 1 (some "task-1") (fun _ => PollResponse.exn)
      (startPolling POLLING) 4 (by decide) rfl rfl (by omega)).1


/-! ## Claim C7 -/

/-- C7: `stopPolling` emits no action at all — in particular no network
request and no cancellation — and only clears the timer, ends
`isPolling`, and resets the delay and retry refs; the stored `result`
and `error` are untouched, and after stopping the loop performs nothing
with any amount of fuel, so the server-side computation is unaffected. -/
theorem claim_C7 (s : HookState) (sid : Int) (tid : Option String)
    (resp : Nat → PollResponse) (fuel : Nat) :
    (stopPolling POLLING s).2 = []
    ∧ (stopPolling POLLING s).1.result = s.result
    ∧ (stopPolling POLLING s).1.error = s.error
    ∧ (stopPolling POLLING s).1.isPolling = false
    ∧ (stopPolling POLLING s).1.timerSet = false
    ∧ (stopPolling POLLING s).1.delay = POLLING.INITIAL_INTERVAL_MS
    ∧ (stopPolling POLLING s).1.retries = 0
    ∧ run POLLING sid tid resp fuel (stopPolling POLLING s).1
        = ((stopPolling POLLING s).1, []) :=
  ⟨rfl, rfl, rfl, rfl, rfl, rfl, rfl,
    run_stopped POLLING sid tid resp fuel _ rfl⟩

/-! ## Claim C9 -/

/-- C9: whenever `poll` reaches a terminal outcome (it signals a
callback, i.e. emits a non-empty event list — the ready, failure,
timeout and thrown-request branches), the delay ref is back at the
initial interval, the retry counter is 0, and no timer is pending;
`stopPolling` resets both refs likewise, and the start effect for a new
task id initializes the cycle with the initial interval, zero retries,
cleared result and error, and a pending first timer. -/
theorem claim_C9 (s : HookState) (r : PollResponse)
    (h : (poll POLLING s r).2 ≠ []) :
    (poll POLLING s r).1.delay = POLLING.INITIAL_INTERVAL_MS
    ∧ (poll POLLING s r).1.retries = 0
    ∧ (poll POLLING s r).1.timerSet = false
    ∧ (stopPolling POLLING s).1.delay = POLLING.INITIAL_INTERVAL_MS
    ∧ (stopPolling POLLING s).1.retries = 0
    ∧ (startPolling POLLING).delay = POLLING.INITIAL_INTERVAL_MS
    ∧ (startPolling POLLING).retries = 0
    ∧ (startPolling POLLING).result = none
    ∧ (startPolling POLLING).error = none
    ∧ (startPolling POLLING).timerSet = true := by
  refine ⟨?_, ?_, ?_, rfl, rfl, rfl, rfl, rfl, rfl, rfl⟩ <;>
  · rcases r with st | _
    · by_cases hr : st.ready = true
      · simp [poll, hr]
      · by_cases hsF : st.status = "FAILURE"
        · simp [poll, hr, hsF]
        · by_cases ht : POLLING.MAX_RETRIES ≤ s.retries + 1
          · simp [poll, hr, hsF, ht]
          · exact absurd (by simp [poll, hr, hsF, ht]) h
    · simp [poll]

/-- C9 witness: a thrown request is a terminal outcome, after which the
delay and retry refs are reset. -/
theorem claim_C9_witness :
    (poll POLLING (loopState POLLING 7) PollResponse.exn).1.delay
        = POLLING.INITIAL_INTERVAL_MS
    ∧ (poll POLLING (loopState POLLING 7) PollResponse.exn).1.retries = 0
    ∧ (poll POLLING (loopState POLLING 7) PollResponse.exn).1.timerSet = false
    ∧ (stopPolling POLLING (loopState POLLING 7)).1.delay
        = POLLING.INITIAL_INTERVAL_MS
    ∧ (stopPolling POLLING (loopState POLLING 7)).1.retries = 0
    ∧ (startPolling POLLING).delay = POLLING.INITIAL_INTERVAL_MS
    ∧ (startPolling POLLING).retries = 0
    ∧ (startPolling POLLING).result = none
    ∧ (startPolling POLLING).error = none
    ∧ (startPolling POLLING).timerSet = true :=
  claim_C9 (loopState POLLING 7) PollResponse.exn (by simp [poll_exn])

/-! ## Claim C4 -/

/-- C4: the session page offers the advance action exactly when the
current StepResult exists with status `completed` and the session is
not `completed`; in particular a `pending` or `in_progress` current
step never offers it. -/
theorem claim_C4 (cs : Option StepResult) (sess : Session) :
    (SessionPage.canAdvance cs sess = true ↔
      ((∃ s, cs = some s ∧ s.status = StepStatus.completed)
        ∧ sess.status ≠ SessionStatus.completed))
    ∧ (∀ s, cs = some s →
        s.status = StepStatus.pending ∨ s.status = StepStatus.in_progress →
        SessionPage.canAdvance cs sess = false) := by
  constructor
  · cases cs with
    | none => simp [SessionPage.canAdvance]
    | some s =>
      simp [SessionPage.canAdvance, SessionPage.isCompleted]
  · intro s hcs hstat
    subst hcs
    rcases hstat with h | h <;>
      simp [SessionPage.canAdvance, h]

/-! ## Claim C6 -/

/-- C6: the session page offers the go-back action exactly when
`current_index` is strictly positive, so it is never offered at the
first step (index 0). -/
theorem claim_C6 (p : SessionProgress) :
    (SessionPage.canGoBack p = true ↔ 0 < p.current_index)
    ∧ (p.current_index = 0 → SessionPage.canGoBack p = false) := by
  constructor
  · simp [SessionPage.canGoBack]
  · intro h
    simp [SessionPage.canGoBack, h]

/-! ## Claim C5 -/

/-- C5: the store's `advanceStep` returns `true` exactly when the
response carries a truthy `completed` field (the completion sentinel);
otherwise it returns `false` and stores the response as the new current
step; the `session` object held by the store is never modified by this
call. -/
theorem claim_C5 (st : SessionStore.StoreState)
    (r : SessionStore.AdvanceResponse) :
    ((SessionStore.advanceStep st r).2 = SessionStore.completedGuard r)
    ∧ ((SessionStore.advanceStep st r).1.currentStep
        = if SessionStore.completedGuard r then st.currentStep else some r)
    ∧ ((SessionStore.advanceStep st r).1.session = st.session)
    ∧ ((SessionStore.advanceStep st r).1.progress = st.progress) := by
  by_cases h : SessionStore.completedGuard r = true <;>
    simp [SessionStore.advanceStep, h]

/-! ## Claim C10 -/

/-- C10: `submitStep` runs the request with `isSubmitting` set, and the
final state has `isSubmitting` cleared whether the request succeeded or
threw; `pollingTaskId` is set to the returned task id exactly on
success and is untouched when the request throws; the outcome is
propagated to the caller. -/
theorem claim_C10 (st : SessionStore.StoreState)
    (r : SessionStore.ApiOutcome String) :
    ((SessionStore.submitStep st r).1.isSubmitting = true)
    ∧ ((SessionStore.submitStep st r).2.1.isSubmitting = false)
    ∧ ((SessionStore.submitStep st r).2.1.pollingTaskId
        = match r with
          | SessionStore.ApiOutcome.ok tid => some tid
          | SessionStore.ApiOutcome.thrown => st.pollingTaskId)
    ∧ ((SessionStore.submitStep st r).2.2 = r)
    ∧ ((SessionStore.submitStep st r).2.1.session = st.session)
    ∧ ((SessionStore.submitStep st r).2.1.currentStep = st.currentStep) := by
  cases r <;> simp [SessionStore.submitStep]

end TrizSpec
